import Mathlib

/-
Verification of the import-from rewrite rule and the convert subcommand of
the air2phin repository.

Shallow embedding notes:
- libcst nodes are modelled structurally. `cst.Name` and `cst.Attribute` become
  the two constructors of `Expr`; the `attr` field of a `cst.Attribute` is
  always a `cst.Name` in libcst, so it is stored as its string value.
  Formatting and whitespace metadata is not modelled: `with_changes` preserves
  it on untouched fields, so byte-identity of untouched parts corresponds to
  structural equality here.
- a Python attribute access `e.attr` on an expression that is a `cst.Name`
  raises `AttributeError` (a `Name` node has no field `attr`); this is
  modelled by `Expr.attrOfValue` returning `Except Unit String`, and
  `From.run` consequently returns `Except Unit ImportFrom`.
- the mutation of `self.node` inside `From.run` is threaded explicitly.
  The module section of the method only ever replaces the `module` field
  (`moduleStep`), and the name loop iterates over the tuple that
  `self.node.names` held when the loop started, which is the original
  `names` sequence, while each match replaces the whole `names` field with a
  one-element tuple (`namesStep`, a left fold whose accumulator is the
  current `self.node.names`, started at the original sequence).
-/

set_option autoImplicit false

/-- Model of a libcst module-reference expression: a bare `Name` or an
`Attribute` access chain (the `attr` component of a libcst `Attribute` is a
`Name`, kept as its string value). -/
inductive Expr where
  | Name (value : String)
  | Attribute (value : Expr) (attr : String)
deriving DecidableEq, Repr

/-- Model of the Python comparison `node.value == s` as it is used in
`From.run`: on a `Name` node, `value` is its string; on an `Attribute` node,
`value` is an expression and comparing it with a string yields `False`. -/
def Expr.valueEq : Expr → String → Bool
  | .Name v, s => v == s
  | .Attribute _ _, _ => false

/-- Model of the Python access `e.attr.value` where `e` is `module.value`:
it succeeds when `e` is an `Attribute` node and raises `AttributeError`
(modelled as `Except.error ()`) when `e` is a `Name` node, which has no
`attr` field. -/
def Expr.attrOfValue : Expr → Except Unit String
  | .Name _ => .error ()
  | .Attribute _ a => .ok a

/-- Model of `cst.ImportAlias`: an imported name and an optional `as` alias. -/
structure ImportAlias where
  name : Expr
  asname : Option String
deriving DecidableEq, Repr

/-- Model of `cst.ImportFrom`: an optional module reference (`none` for a
relative import) and the sequence of imported aliases. -/
structure ImportFrom where
  module : Option Expr
  names : List ImportAlias
deriving DecidableEq, Repr

/-- Replacement chain `pydolphinscheduler.tasks.shell` built by the rule. -/
def tasksShell : Expr :=
  .Attribute (.Attribute (.Name "pydolphinscheduler") "tasks") "shell"

/-- Replacement chain `pydolphinscheduler.tasks.sql` built by the rule. -/
def tasksSql : Expr :=
  .Attribute (.Attribute (.Name "pydolphinscheduler") "tasks") "sql"

/-- Replacement chain `pydolphinscheduler.tasks.python` built by the rule. -/
def tasksPython : Expr :=
  .Attribute (.Attribute (.Name "pydolphinscheduler") "tasks") "python"

/-- Replacement chain `pydolphinscheduler.core.process_definition` built by
the rule. -/
def coreProcessDefinition : Expr :=
  .Attribute (.Attribute (.Name "pydolphinscheduler") "core") "process_definition"

/-- First `if` of the module section: `module.attr.value in ("bash",
"dummy_operator", "dummy") and module.value.attr.value == "operators"`.
`mv` and `ma` are the original `module.value` and `module.attr.value`; `cur`
is the module field of the current `self.node`. The `and` short-circuits, so
`module.value.attr` is only touched (and can only raise) when the first
conjunct holds. -/
def bashDummyStep (mv : Expr) (ma : String) (cur : Option Expr) :
    Except Unit (Option Expr) :=
  if ma == "bash" || ma == "dummy_operator" || ma == "dummy" then
    match Expr.attrOfValue mv with
    | .error e => .error e
    | .ok p => .ok (if p == "operators" then some tasksShell else cur)
  else .ok cur

/-- Second `if` of the module section: `module.attr.value ==
"spark_sql_operator" and module.value.attr.value == "operators"`. -/
def sparkSqlStep (mv : Expr) (ma : String) (cur : Option Expr) :
    Except Unit (Option Expr) :=
  if ma == "spark_sql_operator" then
    match Expr.attrOfValue mv with
    | .error e => .error e
    | .ok p => .ok (if p == "operators" then some tasksSql else cur)
  else .ok cur

/-- Third `if` of the module section: `module.attr.value ==
"python_operator" and module.value.attr.value == "operators"`. -/
def pythonStep (mv : Expr) (ma : String) (cur : Option Expr) :
    Except Unit (Option Expr) :=
  if ma == "python_operator" then
    match Expr.attrOfValue mv with
    | .error e => .error e
    | .ok p => .ok (if p == "operators" then some tasksPython else cur)
  else .ok cur

/-- Module section of `From.run` (the `isinstance` branches over
`module = self.node.module`). Each `if` of the source tests the original
`module` local; a hit replaces the `module` field of `self.node`, threaded
here as the `cur` argument of the three step functions. An `AttributeError`
raised by a test aborts the method. -/
def moduleStep : Option Expr → Except Unit (Option Expr)
  | some (Expr.Attribute mv ma) =>
    match bashDummyStep mv ma (some (Expr.Attribute mv ma)) with
    | .error e => .error e
    | .ok m1 =>
      match sparkSqlStep mv ma m1 with
      | .error e => .error e
      | .ok m2 => pythonStep mv ma m2
  | some (Expr.Name v) =>
    .ok (if v == "airflow" then some coreProcessDefinition else some (Expr.Name v))
  | none => .ok none

/-- One iteration of the name loop of `From.run`: `acc` is the current
`self.node.names` and `ia` is the entry of the original sequence being
inspected. The `DAG` test is an independent `if`; the operator tests form an
`if`/`elif` chain; every hit replaces the whole `names` field with a
one-element tuple holding a bare new name (no `asname`). -/
def aliasStep (acc : List ImportAlias) (ia : ImportAlias) : List ImportAlias :=
  let acc1 :=
    if ia.name.valueEq "DAG" then
      [ImportAlias.mk (Expr.Name "ProcessDefinition") none]
    else acc
  if ia.name.valueEq "BashOperator" || ia.name.valueEq "DummyOperator" then
    [ImportAlias.mk (Expr.Name "Shell") none]
  else if ia.name.valueEq "SparkSqlOperator" then
    [ImportAlias.mk (Expr.Name "Sql") none]
  else if ia.name.valueEq "PythonOperator" then
    [ImportAlias.mk (Expr.Name "Python") none]
  else acc1

/-- Name loop of `From.run`: iterate over the original `names` sequence while
the accumulator is the `names` field of the evolving `self.node`, which
starts as that same original sequence. -/
def namesStep (orig : List ImportAlias) : List ImportAlias :=
  orig.foldl aliasStep orig

/-- Model of the rule class `From`: it is constructed from the `ImportFrom`
node it will rewrite, held in `self.node`. -/
structure From where
  node : ImportFrom

/-- Model of `From.run`: run the module section, then the name loop, on
`self.node`; the final `self.node` is returned. An `AttributeError` raised
by a module test aborts the method (`Except.error`). -/
def From.run (self : From) : Except Unit ImportFrom :=
  (moduleStep self.node.module).map fun m =>
    { module := m, names := namesStep self.node.names }

/-- Per-entry alias matcher derived from `aliasStep`: the unique rewrite an
original `names` entry triggers (`none` when the entry matches no alias
rule). `aliasStep_eq` proves it agrees with the loop body. -/
def aliasTarget (ia : ImportAlias) : Option ImportAlias :=
  if ia.name.valueEq "DAG" then
    some (ImportAlias.mk (Expr.Name "ProcessDefinition") none)
  else if ia.name.valueEq "BashOperator" || ia.name.valueEq "DummyOperator" then
    some (ImportAlias.mk (Expr.Name "Shell") none)
  else if ia.name.valueEq "SparkSqlOperator" then
    some (ImportAlias.mk (Expr.Name "Sql") none)
  else if ia.name.valueEq "PythonOperator" then
    some (ImportAlias.mk (Expr.Name "Python") none)
  else none

/-- Filesystem abstraction for the `convert` subcommand of the CLI:
`pathExists` and `isFile` model `Path.exists` and `Path.is_file`, `glob`
models `Path.glob(filter)`. -/
structure FileSystem where
  pathExists : String → Bool
  isFile : String → Bool
  glob : String → String → List String

/-- Source-collection loop of the `convert` branch of `main`: walk the
`sources` arguments in order; a path that does not exist raises `ValueError`
(modelled as `Except.error` carrying that path) immediately; an existing
file is appended; an existing directory contributes its glob matches. -/
def collectConvertFiles (fs : FileSystem) (filt : String) :
    List String → List String → Except String (List String)
  | [], acc => .ok acc
  | p :: ps, acc =>
    if !(fs.pathExists p) then .error p
    else if fs.isFile p then collectConvertFiles fs filt ps (acc ++ [p])
    else collectConvertFiles fs filt ps (acc ++ fs.glob p filt)

/-- Outcome of the `convert` branch of `main`: either the collection loop
finished and a `Runner` was constructed and `with_files` called on the
collected files, or a `ValueError` was raised on a missing path before any
`Runner` existed. -/
inductive ConvertOutcome where
  | ran (converted : List String)
  | failed (missing : String)
deriving DecidableEq, Repr

/-- Model of the `convert` branch of `main`: the `Runner` is constructed and
run only after the collection loop has finished without error. -/
def convertSubcommand (fs : FileSystem) (filt : String)
    (sources : List String) : ConvertOutcome :=
  match collectConvertFiles fs filt sources [] with
  | .ok files => .ran files
  | .error p => .failed p

/-- One loop iteration agrees with the derived per-entry matcher: a matching
entry replaces the accumulator with its one-element rewrite, a non-matching
entry leaves it untouched. -/
theorem aliasStep_eq (acc : List ImportAlias) (ia : ImportAlias) :
    aliasStep acc ia =
      match aliasTarget ia with
      | some r => [r]
      | none => acc := by
  rcases ia with ⟨nm, asn⟩
  cases nm with
  | Attribute v a => simp [aliasStep, aliasTarget, Expr.valueEq]
  | Name v =>
    simp only [aliasStep, aliasTarget, Expr.valueEq]
    by_cases h1 : v = "DAG" <;> by_cases h2 : v = "BashOperator" <;>
      by_cases h3 : v = "DummyOperator" <;> by_cases h4 : v = "SparkSqlOperator" <;>
      by_cases h5 : v = "PythonOperator" <;>
      simp_all

/-- The name loop started at accumulator `acc` returns the one-element
rewrite of the last matching entry, or `acc` when no entry matches. -/
theorem foldl_aliasStep (l : List ImportAlias) (acc : List ImportAlias) :
    l.foldl aliasStep acc =
      match (l.filterMap aliasTarget).getLast? with
      | some r => [r]
      | none => acc := by
  induction l generalizing acc with
  | nil => simp
  | cons ia tl ih =>
    rw [List.foldl_cons, ih, aliasStep_eq]
    cases h : aliasTarget ia with
    | none => simp [List.filterMap_cons, h]
    | some r =>
      simp only [List.filterMap_cons, h]
      cases h2 : tl.filterMap aliasTarget with
      | nil => simp [h2]
      | cons b bs =>
        rw [List.getLast?_cons_cons]
        cases h3 : (b :: bs).getLast? with
        | none => exact absurd h3 (by simp)
        | some x => rfl

/-- Closed form of the name loop of `From.run`. -/
theorem namesStep_eq (orig : List ImportAlias) :
    namesStep orig =
      match (orig.filterMap aliasTarget).getLast? with
      | some r => [r]
      | none => orig :=
  foldl_aliasStep orig orig

/-- A value returned by `getLast?` is a member of the list. -/
theorem mem_of_getLast?_eq {α : Type} {l : List α} {a : α}
    (h : l.getLast? = some a) : a ∈ l := by
  induction l with
  | nil => simp at h
  | cons b bs ih =>
    cases bs with
    | nil => simp_all
    | cons c cs =>
      rw [List.getLast?_cons_cons] at h
      exact List.mem_cons_of_mem b (ih h)

/-- Every rewrite the alias rules can produce carries no `asname` and a name
that itself matches no alias rule. -/
theorem aliasTarget_target (ia r : ImportAlias) (h : aliasTarget ia = some r) :
    r.asname = none ∧ aliasTarget r = none := by
  unfold aliasTarget at h
  split_ifs at h <;> (injection h with h; subst h; exact ⟨rfl, by decide⟩)

/-- Small concrete filesystem used to evaluate the convert subcommand on a
concrete input: only the path `a` exists, every existing path is a file,
directories match nothing. -/
def demoFS : FileSystem :=
  FileSystem.mk (fun p => p == "a") (fun _ => true) (fun _ _ => [])

/-- C5: the statement `from airflow import DAG`, whose module is the bare
Name `airflow` and whose single imported name is `DAG`, is rewritten by
`From.run` to `from pydolphinscheduler.core.process_definition import
ProcessDefinition`. -/
theorem from_run_bare_airflow_dag :
    From.run (From.mk (ImportFrom.mk (some (Expr.Name "airflow"))
        [ImportAlias.mk (Expr.Name "DAG") none])) =
      .ok (ImportFrom.mk (some coreProcessDefinition)
        [ImportAlias.mk (Expr.Name "ProcessDefinition") none]) := by
  rfl

/-- C6: the statement `from os import path` matches no module pattern and no
alias rule, and `From.run` returns it unchanged. -/
theorem from_run_unmatched_passthrough :
    From.run (From.mk (ImportFrom.mk (some (Expr.Name "os"))
        [ImportAlias.mk (Expr.Name "path") none])) =
      .ok (ImportFrom.mk (some (Expr.Name "os"))
        [ImportAlias.mk (Expr.Name "path") none]) := by
  rfl

/-- Reduction of `Except.map` on a success value. -/
theorem except_map_ok {α β γ : Type} (f : α → β) (a : α) :
    Except.map f (.ok a : Except γ α) = .ok (f a) := rfl

/-- Closed form of the module section on a module whose `value` is itself an
`Attribute` node with trailing name `p`: no test can raise, and the
replacement is selected by the two trailing names. -/
theorem moduleStep_attr_attr (v2 : Expr) (p ma : String) :
    moduleStep (some (Expr.Attribute (Expr.Attribute v2 p) ma)) =
      .ok (if p == "operators" then
             if ma == "bash" || ma == "dummy_operator" || ma == "dummy" then
               some tasksShell
             else if ma == "spark_sql_operator" then some tasksSql
             else if ma == "python_operator" then some tasksPython
             else some (Expr.Attribute (Expr.Attribute v2 p) ma)
           else some (Expr.Attribute (Expr.Attribute v2 p) ma)) := by
  by_cases h1 : ma = "bash" <;> by_cases h2 : ma = "dummy_operator" <;>
    by_cases h3 : ma = "dummy" <;> by_cases h4 : ma = "spark_sql_operator" <;>
    by_cases h5 : ma = "python_operator" <;> by_cases hp : p = "operators" <;>
    simp_all [moduleStep, bashDummyStep, sparkSqlStep, pythonStep,
      Expr.attrOfValue]

/-- Closed form of the module section on a module whose `value` is a bare
`Name` node: a trailing name that triggers any test raises `AttributeError`
(the prefix has no `attr` field); every other module passes unchanged. -/
theorem moduleStep_attr_name (s ma : String) :
    moduleStep (some (Expr.Attribute (Expr.Name s) ma)) =
      if ma == "bash" || ma == "dummy_operator" || ma == "dummy" ||
          ma == "spark_sql_operator" || ma == "python_operator" then
        .error ()
      else .ok (some (Expr.Attribute (Expr.Name s) ma)) := by
  by_cases h1 : ma = "bash" <;> by_cases h2 : ma = "dummy_operator" <;>
    by_cases h3 : ma = "dummy" <;> by_cases h4 : ma = "spark_sql_operator" <;>
    by_cases h5 : ma = "python_operator" <;>
    simp_all [moduleStep, bashDummyStep, sparkSqlStep, pythonStep,
      Expr.attrOfValue]

/-- Successful outputs of the module section are fixed points of the module
section. -/
theorem moduleStep_idem (mo mo' : Option Expr) (h : moduleStep mo = .ok mo') :
    moduleStep mo' = .ok mo' := by
  cases mo with
  | none =>
    simp only [moduleStep] at h
    injection h with h
    subst h
    rfl
  | some e =>
    cases e with
    | Name v =>
      simp only [moduleStep] at h
      injection h with h
      subst h
      by_cases hv : v = "airflow"
      · simp [hv, coreProcessDefinition, moduleStep_attr_attr]
      · simp [hv, moduleStep]
    | Attribute mv ma =>
      cases mv with
      | Name s =>
        rw [moduleStep_attr_name] at h
        split_ifs at h with hc
        injection h with h
        subst h
        rw [moduleStep_attr_name]
        simp [hc]
      | Attribute v2 p =>
        rw [moduleStep_attr_attr] at h
        injection h with h
        subst h
        by_cases hp : p = "operators"
        · by_cases h1 : ma = "bash" <;> by_cases h2 : ma = "dummy_operator" <;>
            by_cases h3 : ma = "dummy" <;> by_cases h4 : ma = "spark_sql_operator" <;>
            by_cases h5 : ma = "python_operator" <;>
            simp_all [moduleStep_attr_attr, tasksShell, tasksSql, tasksPython]
        · simp [hp, moduleStep_attr_attr]

/-- The name loop keeps a nonempty `names` sequence nonempty. -/
theorem namesStep_ne_nil (orig : List ImportAlias) (h : orig ≠ []) :
    namesStep orig ≠ [] := by
  rw [namesStep_eq]
  cases hl : (orig.filterMap aliasTarget).getLast? <;> simp [h]

/-- The name loop is idempotent: its outputs trigger no alias rule. -/
theorem namesStep_idem (orig : List ImportAlias) :
    namesStep (namesStep orig) = namesStep orig := by
  have h0 := namesStep_eq orig
  cases h : (orig.filterMap aliasTarget).getLast? with
  | none =>
    rw [h] at h0
    simp only [] at h0
    rw [h0]
    exact h0
  | some r =>
    rw [h] at h0
    simp only [] at h0
    rw [h0, namesStep_eq]
    have hmem := mem_of_getLast?_eq h
    rw [List.mem_filterMap] at hmem
    obtain ⟨ia, _, hia⟩ := hmem
    have htar := (aliasTarget_target ia r hia).2
    simp [List.filterMap_cons, htar]

/-- C4: applying the import-from rewrite twice equals applying it once; on
every node on which `From.run` succeeds, its output is a fixed point, since
no rewritten module chain and no rewritten name matches any rule pattern. -/
theorem from_run_idempotent (n m : ImportFrom)
    (h : From.run (From.mk n) = .ok m) :
    From.run (From.mk m) = .ok m := by
  unfold From.run at h ⊢
  cases hm : moduleStep n.module with
  | error e => rw [hm] at h; cases h
  | ok mo' =>
    rw [hm, except_map_ok] at h
    injection h with h
    subst h
    simp only []
    rw [moduleStep_idem _ _ hm, except_map_ok, namesStep_idem]

/-- C4 witness: idempotence applied at the concrete statement
`from airflow import DAG`. -/
theorem from_run_idempotent_witness :
    From.run (From.mk (ImportFrom.mk (some coreProcessDefinition)
        [ImportAlias.mk (Expr.Name "ProcessDefinition") none])) =
      .ok (ImportFrom.mk (some coreProcessDefinition)
        [ImportAlias.mk (Expr.Name "ProcessDefinition") none]) :=
  from_run_idempotent
    (ImportFrom.mk (some (Expr.Name "airflow"))
      [ImportAlias.mk (Expr.Name "DAG") none])
    (ImportFrom.mk (some coreProcessDefinition)
      [ImportAlias.mk (Expr.Name "ProcessDefinition") none])
    (by rfl)

/-- C1: an import-from statement over the chain `airflow.operators.bash`,
`airflow.operators.dummy_operator` or `airflow.operators.dummy` whose
imported name is `BashOperator` or `DummyOperator` is rewritten by
`From.run` to `from pydolphinscheduler.tasks.shell import Shell`: the module
and the name rules both fire on the same statement. -/
theorem from_run_operators_chain (ma nm : String) (asn : Option String)
    (hma : ma = "bash" ∨ ma = "dummy_operator" ∨ ma = "dummy")
    (hnm : nm = "BashOperator" ∨ nm = "DummyOperator") :
    From.run (From.mk (ImportFrom.mk
        (some (Expr.Attribute (Expr.Attribute (Expr.Name "airflow") "operators") ma))
        [ImportAlias.mk (Expr.Name nm) asn])) =
      .ok (ImportFrom.mk (some tasksShell)
        [ImportAlias.mk (Expr.Name "Shell") none]) := by
  rcases hma with rfl | rfl | rfl <;> rcases hnm with rfl | rfl <;> rfl

/-- C1 witness: the rewrite evaluated at `from airflow.operators.bash import
BashOperator`. -/
theorem from_run_operators_chain_witness :
    From.run (From.mk (ImportFrom.mk
        (some (Expr.Attribute (Expr.Attribute (Expr.Name "airflow") "operators") "bash"))
        [ImportAlias.mk (Expr.Name "BashOperator") none])) =
      .ok (ImportFrom.mk (some tasksShell)
        [ImportAlias.mk (Expr.Name "Shell") none]) :=
  from_run_operators_chain "bash" "BashOperator" none (Or.inl rfl) (Or.inl rfl)

/-- C3 failing input: on `from x.bash import y`, whose module is a
two-component chain with a bare `Name` prefix, the module pattern does not
match, yet `From.run` does not return the node unchanged: the test
`module.value.attr.value == "operators"` raises `AttributeError` because the
prefix `Name` node has no `attr` field. -/
theorem from_run_raises_on_two_component_module :
    From.run (From.mk (ImportFrom.mk
        (some (Expr.Attribute (Expr.Name "x") "bash"))
        [ImportAlias.mk (Expr.Name "y") none])) = .error () := by
  rfl

/-- C2 counterexample: in `from os import DAG, util`, the entry `util`
matches no alias rule, yet it is not left byte-identical in the output: the
rewrite of `DAG` replaces the whole `names` sequence by the single entry
`ProcessDefinition`, and `util` is gone. -/
theorem from_run_unmatched_sibling_dropped :
    From.run (From.mk (ImportFrom.mk (some (Expr.Name "os"))
        [ImportAlias.mk (Expr.Name "DAG") none,
         ImportAlias.mk (Expr.Name "util") none])) =
      .ok (ImportFrom.mk (some (Expr.Name "os"))
        [ImportAlias.mk (Expr.Name "ProcessDefinition") none]) ∧
    ImportAlias.mk (Expr.Name "util") none ∉
      [ImportAlias.mk (Expr.Name "ProcessDefinition") none] :=
  ⟨rfl, by decide⟩

/-- C2 amended: each `names` entry is evaluated independently with at most
one alias rewrite per entry (`aliasTarget`); when no entry matches, the
`names` sequence is left byte-identical, and when at least one entry
matches, the whole sequence is replaced by the one-element rewrite of the
last matching entry. -/
theorem from_run_names_loop_amended (n m : ImportFrom)
    (h : From.run (From.mk n) = .ok m) :
    m.names =
      match (n.names.filterMap aliasTarget).getLast? with
      | some r => [r]
      | none => n.names := by
  unfold From.run at h
  cases hm : moduleStep n.module with
  | error e => rw [hm] at h; cases h
  | ok mo' =>
    rw [hm, except_map_ok] at h
    injection h with h
    subst h
    exact namesStep_eq n.names

/-- C2 amended witness: the characterization evaluated at `from os import
DAG, util`. -/
theorem from_run_names_loop_amended_witness :
    (ImportFrom.mk (some (Expr.Name "os"))
        [ImportAlias.mk (Expr.Name "ProcessDefinition") none]).names =
      match (([ImportAlias.mk (Expr.Name "DAG") none,
               ImportAlias.mk (Expr.Name "util") none].filterMap aliasTarget)).getLast? with
      | some r => [r]
      | none => [ImportAlias.mk (Expr.Name "DAG") none,
                 ImportAlias.mk (Expr.Name "util") none] :=
  from_run_names_loop_amended
    (ImportFrom.mk (some (Expr.Name "os"))
      [ImportAlias.mk (Expr.Name "DAG") none,
       ImportAlias.mk (Expr.Name "util") none])
    (ImportFrom.mk (some (Expr.Name "os"))
      [ImportAlias.mk (Expr.Name "ProcessDefinition") none])
    (by rfl)

/-- C8 counterexample: a well-formed ImportFrom node (nonempty `names`) on
which `From.run` does not return an ImportFrom node of any structural
category: on `from x.dummy import y` the module test raises
`AttributeError`, so the claim that the transform always returns an
ImportFrom node fails. -/
theorem from_run_wellformed_input_raises :
    (ImportFrom.mk (some (Expr.Attribute (Expr.Name "x") "dummy"))
        [ImportAlias.mk (Expr.Name "y") none]).names ≠ [] ∧
    From.run (From.mk (ImportFrom.mk
        (some (Expr.Attribute (Expr.Name "x") "dummy"))
        [ImportAlias.mk (Expr.Name "y") none])) = .error () :=
  ⟨by decide, rfl⟩

/-- C8 amended: `From.run` is a pure function of the node a fresh `From` is
built from — structurally equal inputs give structurally equal results —
and whenever it returns at all, the result is again an `ImportFrom` node
(by type) with the well-formedness invariant that `names` is nonempty
preserved; it does not always return, as some well-formed inputs raise. -/
theorem from_run_pure_preserves (n1 n2 m : ImportFrom) (hpure : n1 = n2)
    (hrun : From.run (From.mk n1) = .ok m) (hne : n1.names ≠ []) :
    From.run (From.mk n2) = .ok m ∧ m.names ≠ [] := by
  subst hpure
  refine ⟨hrun, ?_⟩
  unfold From.run at hrun
  cases hm : moduleStep n1.module with
  | error e => rw [hm] at hrun; cases hrun
  | ok mo' =>
    rw [hm, except_map_ok] at hrun
    injection hrun with hrun
    subst hrun
    exact namesStep_ne_nil _ hne

/-- C8 witness: purity and category preservation evaluated at
`from os import path`. -/
theorem from_run_pure_preserves_witness :
    From.run (From.mk (ImportFrom.mk (some (Expr.Name "os"))
        [ImportAlias.mk (Expr.Name "path") none])) =
      .ok (ImportFrom.mk (some (Expr.Name "os"))
        [ImportAlias.mk (Expr.Name "path") none]) ∧
    (ImportFrom.mk (some (Expr.Name "os"))
        [ImportAlias.mk (Expr.Name "path") none]).names ≠ [] :=
  from_run_pure_preserves
    (ImportFrom.mk (some (Expr.Name "os"))
      [ImportAlias.mk (Expr.Name "path") none])
    (ImportFrom.mk (some (Expr.Name "os"))
      [ImportAlias.mk (Expr.Name "path") none])
    (ImportFrom.mk (some (Expr.Name "os"))
      [ImportAlias.mk (Expr.Name "path") none])
    rfl (by rfl) (by decide)

/-- C9: whenever an alias rewrite fires (the output `names` differs from the
input `names`), every entry of the output is a bare new name with no `as`
alias: original `asname` components are dropped. -/
theorem from_run_rewrite_drops_asname (n m : ImportFrom)
    (h : From.run (From.mk n) = .ok m) (hch : m.names ≠ n.names) :
    m.names.all (fun ia => ia.asname.isNone) = true := by
  unfold From.run at h
  cases hm : moduleStep n.module with
  | error e => rw [hm] at h; cases h
  | ok mo' =>
    rw [hm, except_map_ok] at h
    injection h with h
    subst h
    have hns := namesStep_eq n.names
    cases hl : (n.names.filterMap aliasTarget).getLast? with
    | none =>
      rw [hl] at hns
      simp only [] at hns
      exact absurd hns hch
    | some r =>
      rw [hl] at hns
      simp only [] at hns
      have hmem := mem_of_getLast?_eq hl
      rw [List.mem_filterMap] at hmem
      obtain ⟨ia, _, hia⟩ := hmem
      have hasn := (aliasTarget_target ia r hia).1
      show (namesStep n.names).all (fun ia => ia.asname.isNone) = true
      rw [hns]
      simp [hasn]

/-- C9 witness: `from airflow import DAG as workflow` yields the bare
`ProcessDefinition` with no `asname`. -/
theorem from_run_rewrite_drops_asname_witness :
    ((ImportFrom.mk (some coreProcessDefinition)
        [ImportAlias.mk (Expr.Name "ProcessDefinition") none]).names.all
      (fun ia => ia.asname.isNone)) = true :=
  from_run_rewrite_drops_asname
    (ImportFrom.mk (some (Expr.Name "airflow"))
      [ImportAlias.mk (Expr.Name "DAG") (some "workflow")])
    (ImportFrom.mk (some coreProcessDefinition)
      [ImportAlias.mk (Expr.Name "ProcessDefinition") none])
    (by rfl) (by decide)

/-- C10: the name loop iterates over the original `names` while each match
replaces the whole `names` field by a one-element tuple, so with two or more
original names of which at least one matches, the output `names` is exactly
the one-element rewrite of the last matching original name and every other
original name is absent. -/
theorem from_run_last_match_replaces (n m : ImportFrom) (r : ImportAlias)
    (hlen : 2 ≤ n.names.length)
    (hr : (n.names.filterMap aliasTarget).getLast? = some r)
    (h : From.run (From.mk n) = .ok m) :
    m.names = [r] := by
  unfold From.run at h
  cases hm : moduleStep n.module with
  | error e => rw [hm] at h; cases h
  | ok mo' =>
    rw [hm, except_map_ok] at h
    injection h with h
    subst h
    have hns := namesStep_eq n.names
    rw [hr] at hns
    simp only [] at hns
    exact hns

/-- C10 witness: `from os import DAG, BashOperator` ends as the single entry
`Shell`, the rewrite of the last matching name. -/
theorem from_run_last_match_replaces_witness :
    (ImportFrom.mk (some (Expr.Name "os"))
        [ImportAlias.mk (Expr.Name "Shell") none]).names =
      [ImportAlias.mk (Expr.Name "Shell") none] :=
  from_run_last_match_replaces
    (ImportFrom.mk (some (Expr.Name "os"))
      [ImportAlias.mk (Expr.Name "DAG") none,
       ImportAlias.mk (Expr.Name "BashOperator") none])
    (ImportFrom.mk (some (Expr.Name "os"))
      [ImportAlias.mk (Expr.Name "Shell") none])
    (ImportAlias.mk (Expr.Name "Shell") none)
    (by decide) (by decide) (by rfl)

/-- The collection loop of the convert subcommand fails on a missing path
whatever has been collected so far. -/
theorem collectConvertFiles_error (fs : FileSystem) (filt : String) :
    ∀ (sources : List String) (acc : List String),
      (∃ p ∈ sources, fs.pathExists p = false) →
      ∃ q ∈ sources, fs.pathExists q = false ∧
        collectConvertFiles fs filt sources acc = .error q := by
  intro sources
  induction sources with
  | nil => intro acc hmiss; simp at hmiss
  | cons p ps ih =>
    intro acc hmiss
    by_cases hp : fs.pathExists p = false
    · exact ⟨p, by simp, hp, by simp [collectConvertFiles, hp]⟩
    · have hp' : fs.pathExists p = true := by
        cases hpe : fs.pathExists p
        · exact absurd hpe hp
        · rfl
      have hmiss' : ∃ q ∈ ps, fs.pathExists q = false := by
        rcases hmiss with ⟨r, hr, hrf⟩
        rcases List.mem_cons.mp hr with hr' | hr'
        · subst hr'; exact absurd hrf hp
        · exact ⟨r, hr', hrf⟩
      cases hf : fs.isFile p with
      | true =>
        obtain ⟨q, hq, hqf, hcol⟩ := ih (acc ++ [p]) hmiss'
        exact ⟨q, List.mem_cons_of_mem p hq, hqf,
          by simp [collectConvertFiles, hp', hf, hcol]⟩
      | false =>
        obtain ⟨q, hq, hqf, hcol⟩ := ih (acc ++ fs.glob p filt) hmiss'
        exact ⟨q, List.mem_cons_of_mem p hq, hqf,
          by simp [collectConvertFiles, hp', hf, hcol]⟩

/-- C7: if any referenced source path does not exist, the convert subcommand
raises before any conversion work begins: the outcome is `failed` on a
missing path, so no `Runner` is constructed and no file is converted, even
for the source paths that do exist. -/
theorem convert_fails_fast (fs : FileSystem) (filt : String)
    (sources : List String)
    (h : ∃ p ∈ sources, fs.pathExists p = false) :
    ∃ q ∈ sources, fs.pathExists q = false ∧
      convertSubcommand fs filt sources = ConvertOutcome.failed q := by
  obtain ⟨q, hq, hqf, hcol⟩ := collectConvertFiles_error fs filt sources [] h
  exact ⟨q, hq, hqf, by simp [convertSubcommand, hcol]⟩

/-- C7 witness: converting sources `a` and `b` on a filesystem where only
`a` exists fails on `b`. -/
theorem convert_fails_fast_witness :
    ∃ q ∈ ["a", "b"], demoFS.pathExists q = false ∧
      convertSubcommand demoFS "glob" ["a", "b"] = ConvertOutcome.failed q :=
  convert_fails_fast demoFS "glob" ["a", "b"]
    ⟨"b", by decide, by decide⟩
